import Mathlib

/-!
# Verification of `scripts/update-presets.py`

Shallow embedding of the preset-updating script.  Python strings are
modelled as Lean `String`s (sequences of unicode characters, exactly as in
CPython); Python binary64 float *values* are modelled exactly as rationals
(`ℚ`), with `float(...)` string-to-number conversion embedded as exact
decimal/scientific parsing; Python exceptions are modelled with
`Except PyErr`.  The HTTP session is modelled as an oracle
`http : String → Except PyErr String` mapping a request URL to either the
response body text (after `raise_for_status` succeeded) or a transport /
status error.
-/

set_option maxRecDepth 10000

deriving instance DecidableEq for Except

namespace UpdatePresets

/-- Python exception values observable in the script. -/
inductive PyErr where
  /-- `IndexError` from out-of-range list indexing. -/
  | indexError : PyErr
  /-- `ValueError` from `float(...)` on a non-numeric token. -/
  | valueError : PyErr
  /-- `KeyError(k)` from `set.remove(k)` when `k` is absent. -/
  | keyError (k : String) : PyErr
  /-- A generic `Exception(msg)` raised by the script itself. -/
  | exception (msg : String) : PyErr
  /-- A transport-level failure of the HTTP session (connection error or
  `raise_for_status` on a bad HTTP status). -/
  | httpError : PyErr
deriving DecidableEq, Repr

/-! ## Python string primitives -/

/-- The whitespace characters recognised by `str.strip`, `str.split()` and
`str.splitlines` for the ASCII range (the script only ever handles ASCII
configuration and response text). -/
def isPyWs (c : Char) : Bool :=
  c = ' ' || c = '\t' || c = '\n' || c = '\r' || c = '\x0b' || c = '\x0c'

/-- Python `str.strip()` (no argument): remove leading and trailing
whitespace. -/
def pyStrip (s : String) : String :=
  ⟨((s.data.dropWhile isPyWs).reverse.dropWhile isPyWs).reverse⟩

/-- Python `str.startswith(pre)`. -/
def pyStartswith (s pre : String) : Bool :=
  pre.data.isPrefixOf s.data

/-- Python `str.endswith(suf)`. -/
def pyEndswith (s suf : String) : Bool :=
  suf.data.isSuffixOf s.data

/-- Python slicing `s[a:b]` for non-negative character indices `a`, `b`
(empty when `a ≥ b`, clipped at the end of the string). -/
def pySlice (s : String) (a b : Nat) : String :=
  ⟨(s.data.take b).drop a⟩

/-- Helper for `pyFind`: first character index at or after `i` where `p`
occurs in the remaining character list. -/
def pyFindAux (p : List Char) : List Char → Nat → Option Nat
  | [], i => if p.isPrefixOf [] then some i else none
  | c :: t, i =>
      if p.isPrefixOf (c :: t) then some i else pyFindAux p t (i + 1)

/-- Python `s.find(pat)`: index (in characters) of the first occurrence of
`pat` in `s`, or `none` for Python's `-1`. -/
def pyFind (s pat : String) : Option Nat :=
  pyFindAux pat.data s.data 0

/-- Helper for `pySplitlines`: split a character list at line boundaries
(`\n`, `\r\n`, `\r`, `\x0b`, `\x0c`), Python `str.splitlines()` style: a
terminating break does not produce a trailing empty line. -/
def pySplitlinesAux : List Char → List Char → List (List Char)
  | [], acc => if acc.isEmpty then [] else [acc.reverse]
  | ['\r'], acc => [acc.reverse]
  | '\r' :: '\n' :: rest, acc => acc.reverse :: pySplitlinesAux rest []
  | '\r' :: c :: rest, acc => acc.reverse :: pySplitlinesAux (c :: rest) []
  | c :: rest, acc =>
      if c = '\n' || c = '\x0b' || c = '\x0c' then
        acc.reverse :: pySplitlinesAux rest []
      else
        pySplitlinesAux rest (c :: acc)

/-- Python `str.splitlines()`. -/
def pySplitlines (s : String) : List String :=
  (pySplitlinesAux s.data []).map String.mk

/-- Helper for `pySplitWs`: split on runs of whitespace, discarding empty
pieces (Python `str.split()` with no argument). -/
def pySplitWsAux : List Char → List Char → List (List Char)
  | [], acc => if acc.isEmpty then [] else [acc.reverse]
  | c :: rest, acc =>
      if isPyWs c then
        if acc.isEmpty then pySplitWsAux rest []
        else acc.reverse :: pySplitWsAux rest []
      else
        pySplitWsAux rest (c :: acc)

/-- Python `str.split()` (no argument). -/
def pySplitWs (s : String) : List String :=
  (pySplitWsAux s.data []).map String.mk

/-- Decimal digit test. -/
def isDigitChar (c : Char) : Bool :=
  '0' ≤ c && c ≤ '9'

/-- Value of a (possibly empty) list of decimal digits. -/
def digitsToNat (ds : List Char) : Nat :=
  ds.foldl (fun n c => 10 * n + (c.toNat - '0'.toNat)) 0

/-- Python `float(tok)` on a whitespace-free token, modelled exactly over
`ℚ`: optional sign, decimal mantissa (digits, optionally with a fractional
part, `"1."` and `".5"` allowed), optional `e`/`E` exponent.  The exact
value `±(ip.fp) × 10^(±exp)` is built with `mkRat` from the mantissa
digits and powers of ten.  Returns `none` where CPython raises
`ValueError`.  (The special spellings `inf`/`nan` never occur in ephemeris
records and are not modelled; real float values are modelled exactly,
without binary64 rounding.) -/
def pyFloat (s : String) : Option ℚ := do
  let l0 := s.data
  let (neg, l1) : Bool × List Char :=
    match l0 with
    | '+' :: t => (false, t)
    | '-' :: t => (true, t)
    | t => (false, t)
  let ip := l1.takeWhile isDigitChar
  let l2 := l1.dropWhile isDigitChar
  let (fp, l3) : List Char × List Char :=
    match l2 with
    | '.' :: t => (t.takeWhile isDigitChar, t.dropWhile isDigitChar)
    | t => ([], t)
  if ip.isEmpty && fp.isEmpty then none else do
  let expPart ←
    (match l3 with
    | 'e' :: t | 'E' :: t =>
        let est : Bool × List Char :=
          match t with
          | '+' :: u => (false, u)
          | '-' :: u => (true, u)
          | u => (false, u)
        let ed := est.2.takeWhile isDigitChar
        if ed.isEmpty then none
        else some (est.1, digitsToNat ed, est.2.dropWhile isDigitChar)
    | t => some (false, 0, t) : Option (Bool × Nat × List Char))
  let eneg := expPart.1
  let emag := expPart.2.1
  let l4 := expPart.2.2
  if !l4.isEmpty then none else
  let m : Nat := digitsToNat (ip ++ fp)
  let sgn : Int := if neg then -1 else 1
  if eneg then
    some (mkRat (sgn * (m : Int)) (10 ^ (fp.length + emag)))
  else
    some (mkRat (sgn * ((m * 10 ^ emag : Nat) : Int)) (10 ^ fp.length))

/-! ## The data model (`Elements`) and the parser -/

/-- Elements: the elements returned by the API call in their original
form (`ec` eccentricity, `qr` periapsis radius in km, `in_` inclination,
`om` longitude of ascending node, `w` argument of periapsis, `ma` mean
anomaly; angles in degrees). -/
structure Elements where
  ec : ℚ
  qr : ℚ
  in_ : ℚ
  om : ℚ
  w : ℚ
  ma : ℚ
deriving DecidableEq, Repr

/-- The start marker string. -/
def ELEMENTS_START_TEXT : String := "$$SOE"

/-- The end marker string. -/
def ELEMENTS_END_TEXT : String := "$$EOE"

/-- Python list indexing `l[i]`, raising `IndexError` out of range. -/
def getIdx (l : List ℚ) (i : Nat) : Except PyErr ℚ :=
  match l.get? i with
  | some q => .ok q
  | none => .error .indexError

/-- The list comprehension `[float(el) for el in toks]`: converts every
token, raising `ValueError` at the first non-numeric one. -/
def floatList : List String → Except PyErr (List ℚ)
  | [] => .ok []
  | el :: rest =>
      match pyFloat el with
      | some q =>
          match floatList rest with
          | .ok qs => .ok (q :: qs)
          | .error e => .error e
      | none => .error PyErr.valueError

/-- Embedding of `parse_ephemeris(ephemeris_text)`: locate `$$SOE` / `$$EOE`; if either
is missing return `None`; otherwise strip the text strictly between them,
drop the first line (the timestamp), space-join the remaining lines, split
on whitespace, convert every token with `float` and build `Elements` from
positions 0, 1, 2, 3, 4 and 7. -/
def parse_ephemeris (ephemeris_text : String) : Except PyErr (Option Elements) :=
  match pyFind ephemeris_text ELEMENTS_START_TEXT,
        pyFind ephemeris_text ELEMENTS_END_TEXT with
  | some start_idx, some end_idx =>
      let data_text :=
        pyStrip (pySlice ephemeris_text (start_idx + ELEMENTS_START_TEXT.length) end_idx)
      let data_lines := pySplitlines data_text
      if data_lines.length < 1 then .ok none
      else
        let elements_wsv := pyStrip (String.intercalate " " (data_lines.drop 1))
        match floatList (pySplitWs elements_wsv) with
        | .error e => .error e
        | .ok elements_arr =>
            match getIdx elements_arr 0, getIdx elements_arr 1,
                  getIdx elements_arr 2, getIdx elements_arr 3,
                  getIdx elements_arr 4, getIdx elements_arr 7 with
            | .ok ec, .ok qr, .ok in_, .ok om, .ok w, .ok ma =>
                .ok (some ⟨ec, qr, in_, om, w, ma⟩)
            | .error e, _, _, _, _, _ => .error e
            | _, .error e, _, _, _, _ => .error e
            | _, _, .error e, _, _, _ => .error e
            | _, _, _, .error e, _, _ => .error e
            | _, _, _, _, .error e, _ => .error e
            | _, _, _, _, _, .error e => .error e
  | _, _ => .ok none

/-! ## Body registry and ephemeris client -/

/-- Embedding of `BODY_MAP`: maps the TOML name to the pair of the Horizons
ID and its parent ID, or to `none` for bodies with no lookup.  Association
list in the source's order (all keys distinct). -/
def BODY_MAP : List (String × Option (String × String)) := [
  ("the_sun", none),
  ("mercury", some ("199", "10")),
  ("venus", some ("299", "10")),
  ("earth", some ("399", "10")),
  ("mars", some ("499", "10")),
  ("jupiter", some ("599", "10")),
  ("saturn", some ("699", "10")),
  ("uranus", some ("799", "10")),
  ("neptune", some ("899", "10")),
  ("luna", some ("301", "399")),
  ("phobos", some ("401", "499")),
  ("deimos", some ("402", "499")),
  ("io", some ("501", "599")),
  ("europa", some ("502", "599")),
  ("ganymede", some ("503", "599")),
  ("callisto", some ("504", "599")),
  ("titan", some ("606", "699")),
  ("enceladus", some ("602", "699")),
  ("mimas", some ("601", "699")),
  ("tethys", some ("603", "699")),
  ("iapetus", some ("608", "699")),
  ("titania", some ("703", "799")),
  ("oberon", some ("704", "799")),
  ("triton", some ("801", "899")),
  ("proteus", some ("808", "899")),
  ("nereid", some ("802", "899")),
  ("weywot", some ("120050000", "920050000")),
  ("charon", some ("901", "999")),
  ("dysnomia", some ("120136199", "920136199")),
  ("ceres", some ("1;", "10")),
  ("vesta", some ("4;", "10")),
  ("quaoar", some ("50000;", "10")),
  ("sedna", some ("90377;", "10")),
  ("leleakuhonua", some ("541132;", "10")),
  ("pluto", some ("134340;", "10")),
  ("haumea", some ("136108;", "10")),
  ("eris", some ("136199;", "10")),
  ("makemake", some ("136472;", "10")),
  ("parker_solar_probe", some ("-96", "10")),
  ("voyager_1", some ("-31", "10")),
  ("voyager_2", some ("-32", "10")),
  ("new_horizons", some ("-98", "10")),
  ("pioneer_10", some ("-23", "10")),
  ("pioneer_11", some ("-24", "10")),
  ("geostationary_sat", none)]

/-- The keys of `BODY_MAP`, in order: the initial value of the module-level
set `remaining_bodies = set(BODY_MAP.keys())`. -/
def bodyMapKeys : List String := BODY_MAP.map Prod.fst

/-- The fixed API endpoint. -/
def API_BASE : String := "https://ssd.jpl.nasa.gov/api/horizons.api"

/-- Embedding of `API_BASE_PARAMS` (a Python `dict`, modelled as an ordered
association list).  The `TLIST` value is the rendering of the f-string
over the fixed epoch `TDB_TIMESTAMP = 2460946.166666700` with nine decimal
places. -/
def API_BASE_PARAMS : List (String × String) := [
  ("format", "text"),
  ("OBJ_DATA", "NO"),
  ("EPHEM_TYPE", "ELEMENTS"),
  ("MAKE_EPHEM", "YES"),
  ("REF_PLANE", "ECLIPTIC"),
  ("TIME_TYPE", "TDB"),
  ("TLIST", "'2460946.166666700'"),
  ("TLIST_TYPE", "JD"),
  ("ELM_LABELS", "NO")]

/-- Python `dict` update with a single key: overwrite in place when the key
is present, append otherwise (insertion order preserved, as in CPython). -/
def dictSet (d : List (String × String)) (k v : String) : List (String × String) :=
  if d.any (fun p => p.1 == k) then
    d.map (fun p => if p.1 == k then (k, v) else p)
  else
    d ++ [(k, v)]

/-- Hexadecimal digit for `percentEncode` (uppercase, as `urllib` emits). -/
def hexDigit (n : Nat) : Char :=
  if n < 10 then Char.ofNat ('0'.toNat + n) else Char.ofNat ('A'.toNat + n - 10)

/-- Percent-encoding of a single (ASCII) character. -/
def percentEncode (c : Char) : String :=
  ⟨['%', hexDigit (c.toNat / 16 % 16), hexDigit (c.toNat % 16)]⟩

/-- Character-wise `urllib.parse.quote_plus` on the ASCII strings the
script uses: space becomes `+`, unreserved characters pass through, the
rest are percent-encoded. -/
def quotePlus (s : String) : String :=
  String.join (s.data.map (fun c =>
    if c = ' ' then "+"
    else if c.isAlphanum || c = '-' || c = '_' || c = '.' || c = '~' then String.singleton c
    else percentEncode c))

/-- Embedding of `urllib.parse.urlencode`. -/
def urlencode (params : List (String × String)) : String :=
  String.intercalate "&" (params.map (fun p => quotePlus p.1 ++ "=" ++ quotePlus p.2))

/-- Embedding of `get_api_url(params)`. -/
def get_api_url (params : List (String × String)) : String :=
  API_BASE ++ "?" ++ urlencode params

/-- Embedding of `get_api_params(name)`: raise for a name absent from
`BODY_MAP`, return `None` for a body with no lookup, otherwise the base
parameters extended with `COMMAND` and `CENTER`. -/
def get_api_params (name : String) : Except PyErr (Option (List (String × String))) :=
  match List.lookup name BODY_MAP with
  | none =>
      .error (.exception ("Body '" ++ name ++ "' is not in BODY_MAP (unrecognized body)"))
  | some none => .ok none
  | some (some tp) =>
      let command := "'" ++ tp.1 ++ "'"
      let center := "@" ++ tp.2
      .ok (some (dictSet (dictSet API_BASE_PARAMS "COMMAND" command) "CENTER" center))

/-- The fixed prefix of the message of the exception raised by
`get_elements` when `parse_ephemeris` returns `None`; the full raw
response text is appended to it. -/
def PARSE_ERR_PREFIX : String :=
  "Could not parse ephemeris. Could this be an API error?\nServer response:\n"

/-- Embedding of `get_elements(name)`, parametrised by the HTTP oracle
`http` (the composite of `SESSION.get` and `raise_for_status`: it maps the
request URL to the response text, or to an error for a connection failure
or a bad status surviving the retries). -/
def get_elements (http : String → Except PyErr String) (name : String) :
    Except PyErr (Option Elements) :=
  match get_api_params name with
  | .error e => .error e
  | .ok none => .ok none
  | .ok (some params) =>
      match http (get_api_url params) with
      | .error e => .error e
      | .ok text =>
          match parse_ephemeris text with
          | .error e => .error e
          | .ok none => .error (.exception (PARSE_ERR_PREFIX ++ text))
          | .ok (some elements) => .ok (some elements)

/-! ## The config patcher (`__main__`) -/

/-- Rendering of a numeric value into a config line (the f-string
interpolation `{value}`).  CPython renders the binary64 float with `repr`;
values are modelled exactly as rationals here and rendered with the
standard rational printer — every claim below depends only on the numeric
value rendered, never on Python's digit notation. -/
def fmtFloat (q : ℚ) : String := toString q

/-- The body of the field-replacement chain of the main loop: the six
sequential `if line.startswith(...)` statements, each overwriting
`new_line`.  Note the source rewrites an `apoapsis` line with the key
`eccentricity`. -/
def computeNewLine (e : Elements) (line : String) : Option String :=
  let nl : Option String := none
  let nl := if pyStartswith line "apoapsis" || pyStartswith line "eccentricity" then
      some ("eccentricity = " ++ fmtFloat e.ec) else nl
  let nl := if pyStartswith line "periapsis" then
      some ("periapsis = " ++ fmtFloat (e.qr * 1000)) else nl
  let nl := if pyStartswith line "inclination" then
      some ("inclination = " ++ fmtFloat e.in_) else nl
  let nl := if pyStartswith line "arg_pe" then
      some ("arg_pe = " ++ fmtFloat e.w) else nl
  let nl := if pyStartswith line "long_asc_node" then
      some ("long_asc_node = " ++ fmtFloat e.om) else nl
  let nl := if pyStartswith line "mean_anomaly" then
      some ("mean_anomaly = " ++ fmtFloat e.ma) else nl
  nl

/-- A stripped line bears one of the recognised field prefixes. -/
def recognizedField (line : String) : Bool :=
  pyStartswith line "apoapsis" || pyStartswith line "eccentricity" ||
  pyStartswith line "periapsis" || pyStartswith line "inclination" ||
  pyStartswith line "arg_pe" || pyStartswith line "long_asc_node" ||
  pyStartswith line "mean_anomaly"

/-- The section-header test of the main loop:
`line.startswith("[") and line.endswith("]")` on the stripped line. -/
def isHdrLine (line : String) : Bool :=
  pyStartswith line "[" && pyEndswith line "]"

/-- The bracketed name `line[1:-1]` of a stripped header line. -/
def hdrBody (line : String) : String :=
  pySlice line 1 (line.length - 1)

/-- The mutable state of the first pass of `__main__`: the module-level
`remaining_bodies` set (as the ordered list of still-unseen keys), the
loop variables `current_elements`, and the `modified_lines` dict (as an
association list keyed by line number; line numbers are distinct). -/
structure ScanState where
  remaining : List String
  curElems : Option Elements
  modified : List (Nat × String)
deriving DecidableEq, Repr

/-- The state at the top of `__main__`. -/
def mainInit : ScanState :=
  { remaining := bodyMapKeys, curElems := none, modified := [] }

/-- Result of a fetch as the loop sees it: the `try`/`except` block turns
any exception from `get_elements` into `current_elements = None`. -/
def fetchToElems (r : Except PyErr (Option Elements)) : Option Elements :=
  match r with
  | .ok v => v
  | .error _ => none

/-- The section-header block of the main loop, on the stripped line:
`remaining_bodies.remove` (raising `KeyError` when the name is not an
unseen registry key — this happens *outside* the `try`), then the guarded
fetch. -/
def headerPhase (fetch : String → Except PyErr (Option Elements)) (line : String)
    (st : ScanState) : Except PyErr ScanState :=
  if isHdrLine line then
    let body := hdrBody line
    if body ∈ st.remaining then
      .ok { remaining := st.remaining.erase body,
            curElems := fetchToElems (fetch body),
            modified := st.modified }
    else
      .error (.keyError body)
  else
    .ok st

/-- The remainder of the loop body: `continue` when `current_elements` is
`None`, otherwise run the replacement chain and record a produced line in
`modified_lines` under the current line number. -/
def fieldPhase (i : Nat) (line : String) (st : ScanState) : ScanState :=
  match st.curElems with
  | none => st
  | some e =>
      match computeNewLine e line with
      | some nl => { st with modified := st.modified ++ [(i, nl)] }
      | none => st

/-- One iteration of the first-pass loop over `(line_num, line)`: strip the
raw line, run the header block, then the field block. -/
def scanStep (fetch : String → Except PyErr (Option Elements)) (i : Nat) (raw : String)
    (st : ScanState) : Except PyErr ScanState :=
  match headerPhase fetch (pyStrip raw) st with
  | .error e => .error e
  | .ok st1 => .ok (fieldPhase i (pyStrip raw) st1)

/-- The first pass of `__main__`: fold `scanStep` over the enumerated raw
lines (each raw line carries its trailing newline, as Python file
iteration yields it). -/
def scanLines (fetch : String → Except PyErr (Option Elements)) :
    Nat → List String → ScanState → Except PyErr ScanState
  | _, [], st => .ok st
  | i, raw :: rest, st =>
      match scanStep fetch i raw st with
      | .error e => .error e
      | .ok st' => scanLines fetch (i + 1) rest st'

/-- The second pass of `__main__`: re-enumerate the raw lines and stream
each to the temporary file, substituting `modified_lines[i] + "\n"` where
an entry exists and the raw line verbatim otherwise. -/
def applyMods (mods : List (Nat × String)) : Nat → List String → List String
  | _, [] => []
  | i, raw :: rest =>
      (match List.lookup i mods with
       | some m => m ++ "\n"
       | none => raw) :: applyMods mods (i + 1) rest

/-- The whole run of `__main__` on the config file's raw lines: first pass
from the initial state, then (desynchronisation report aside, which only
prints) the second pass producing the lines of the replacement file. -/
def runMain (http : String → Except PyErr String) (rawLines : List String) :
    Except PyErr (List String) :=
  match scanLines (get_elements http) 0 rawLines mainInit with
  | .error e => .error e
  | .ok st => .ok (applyMods st.modified 0 rawLines)

/-- One step of the scan for the last section header: a header line
replaces the remembered body name, any other line keeps it. -/
def lastHeaderStep (acc : Option String) (raw : String) : Option String :=
  let s := pyStrip raw
  if isHdrLine s then some (hdrBody s) else acc

/-- The body name of the last section-header line of a list of raw lines
(the section governing the lines that follow). -/
def lastHeader (ls : List String) : Option String :=
  ls.foldl lastHeaderStep none

/-! ## Spec-side definitions

Definitions in this section follow the words of the specification / claims
(for refinement comparison against the source embedding above), not the
source code. -/

/-- Token extraction exactly as claim C3 words it: the text *strictly
between* the markers (no stripping), split into lines, first line dropped,
the rest space-joined and whitespace-split. -/
def claimTokens (t : String) : Option (List String) :=
  match pyFind t ELEMENTS_START_TEXT, pyFind t ELEMENTS_END_TEXT with
  | some si, some ei =>
      let between := pySlice t (si + ELEMENTS_START_TEXT.length) ei
      some (pySplitWs (String.intercalate " " ((pySplitlines between).drop 1)))
  | _, _ => none

/-- The parse result claim C3 describes: an `Elements` value taking
eccentricity from token 0, periapsis radius from token 1, inclination from
token 2, longitude of ascending node from token 3, argument of periapsis
from token 4 and mean anomaly from token 7 of `claimTokens`. -/
def claimParse (t : String) : Option Elements :=
  match claimTokens t with
  | none => none
  | some toks =>
      match floatList toks with
      | .error _ => none
      | .ok qs =>
          match qs.get? 0, qs.get? 1, qs.get? 2, qs.get? 3, qs.get? 4, qs.get? 7 with
          | some ec, some qr, some in_, some om, some w, some ma =>
              some ⟨ec, qr, in_, om, w, ma⟩
          | _, _, _, _, _, _ => none

/-- Token extraction as the *amended* claim C3 words it (and as the code
computes it): the text strictly between the markers is stripped of
surrounding whitespace before the first line is dropped. -/
def specTokens (t : String) (si ei : Nat) : List String :=
  pySplitWs (pyStrip (String.intercalate " "
    ((pySplitlines (pyStrip (pySlice t (si + ELEMENTS_START_TEXT.length) ei))).drop 1)))

/-! ## Claim theorems -/

/-- C1 (code bug): on a config file whose sole line is the section header
`[unknown_body]`, a name that is not a key of the body registry, the run
does not complete: `remaining_bodies.remove` raises an uncaught `KeyError`
(it executes outside the `try`/`except` that was meant to catch the
registry-miss exception of `get_api_params`), so no output is produced —
contradicting the claim that unmatched sections are tolerated. -/
theorem c1_unknown_section_aborts :
    runMain (fun _ => .ok "") ["[unknown_body]\n"] =
      .error (.keyError "unknown_body") := by
  decide

/-- Two keys neither of which prefixes the other cannot both be prefixes of
the same line. -/
theorem startsWith_excl {line k k' : String} (h : pyStartswith line k = true)
    (h1 : k.data.isPrefixOf k'.data = false) (h2 : k'.data.isPrefixOf k.data = false) :
    pyStartswith line k' = false := by
  cases hc : pyStartswith line k' with
  | false => rfl
  | true =>
    exfalso
    have hk : k.data <+: line.data := List.isPrefixOf_iff_prefix.mp h
    have hk' : k'.data <+: line.data := List.isPrefixOf_iff_prefix.mp hc
    rcases List.prefix_or_prefix_of_prefix hk hk' with h3 | h3
    · rw [← List.isPrefixOf_iff_prefix] at h3
      rw [h3] at h1
      exact Bool.true_eq_false.mp h1
    · rw [← List.isPrefixOf_iff_prefix] at h3
      rw [h3] at h2
      exact Bool.true_eq_false.mp h2

/-- A replacement line built as `key ++ " = " ++ value` starts with its
key. -/
theorem startsWith_of_key (k v : String) : pyStartswith (k ++ " = " ++ v) k = true := by
  unfold pyStartswith
  rw [List.isPrefixOf_iff_prefix, String.data_append, String.data_append,
    List.append_assoc]
  exact List.prefix_append _ _

/-- C2 (counterexample): a line with key `apoapsis` is not rewritten with
its own key: with all elements equal to 1, the line `apoapsis = 0.5` is
replaced by `eccentricity = 1`, which is not of the form
`apoapsis = <value>`. -/
theorem c2_counterexample :
    computeNewLine ⟨1, 1, 1, 1, 1, 1⟩ "apoapsis = 0.5" = some "eccentricity = 1" ∧
    ¬ ∃ v : String, computeNewLine ⟨1, 1, 1, 1, 1, 1⟩ "apoapsis = 0.5" =
        some ("apoapsis" ++ " = " ++ v) := by
  refine ⟨by decide, ?_⟩
  rintro ⟨v, hv⟩
  rw [(by decide : computeNewLine ⟨1, 1, 1, 1, 1, 1⟩ "apoapsis = 0.5" =
    some "eccentricity = 1")] at hv
  have hs : pyStartswith "eccentricity = 1" "apoapsis" = true := by
    rw [Option.some.inj hv]
    exact startsWith_of_key "apoapsis" v
  exact absurd hs (by decide)

/-- C2 (amended): a recognised field line with key `eccentricity`,
`periapsis`, `inclination`, `arg_pe`, `long_asc_node` or `mean_anomaly` is
replaced by a line with that same key followed by an equals sign and the
new value; a line with key `apoapsis`, however, is rewritten with the key
`eccentricity` (the apoapsis field is migrated to eccentricity). -/
theorem c2_replacement_key (e : Elements) (line : String) :
    (∀ k, k ∈ (["eccentricity", "periapsis", "inclination", "arg_pe",
        "long_asc_node", "mean_anomaly"] : List String) →
      pyStartswith line k = true →
      ∃ v, computeNewLine e line = some (k ++ " = " ++ v)) ∧
    (pyStartswith line "apoapsis" = true →
      computeNewLine e line = some ("eccentricity = " ++ fmtFloat e.ec)) := by
  constructor
  · intro k hk hs
    fin_cases hk
    · have x2 : pyStartswith line "periapsis" = false := startsWith_excl hs (by decide) (by decide)
      have x3 : pyStartswith line "inclination" = false := startsWith_excl hs (by decide) (by decide)
      have x4 : pyStartswith line "arg_pe" = false := startsWith_excl hs (by decide) (by decide)
      have x5 : pyStartswith line "long_asc_node" = false := startsWith_excl hs (by decide) (by decide)
      have x6 : pyStartswith line "mean_anomaly" = false := startsWith_excl hs (by decide) (by decide)
      refine ⟨fmtFloat e.ec, ?_⟩
      simp only [computeNewLine, hs, x2, x3, x4, x5, x6, Bool.or_true,
        if_true, Bool.false_eq_true, if_false]
      rw [(by decide : ("eccentricity" ++ " = " : String) = "eccentricity = ")]
    · have x3 : pyStartswith line "inclination" = false := startsWith_excl hs (by decide) (by decide)
      have x4 : pyStartswith line "arg_pe" = false := startsWith_excl hs (by decide) (by decide)
      have x5 : pyStartswith line "long_asc_node" = false := startsWith_excl hs (by decide) (by decide)
      have x6 : pyStartswith line "mean_anomaly" = false := startsWith_excl hs (by decide) (by decide)
      refine ⟨fmtFloat (e.qr * 1000), ?_⟩
      simp only [computeNewLine, hs, x3, x4, x5, x6, if_true, Bool.false_eq_true, if_false]
      rw [(by decide : ("periapsis" ++ " = " : String) = "periapsis = ")]
    · have x4 : pyStartswith line "arg_pe" = false := startsWith_excl hs (by decide) (by decide)
      have x5 : pyStartswith line "long_asc_node" = false := startsWith_excl hs (by decide) (by decide)
      have x6 : pyStartswith line "mean_anomaly" = false := startsWith_excl hs (by decide) (by decide)
      refine ⟨fmtFloat e.in_, ?_⟩
      simp only [computeNewLine, hs, x4, x5, x6, if_true, Bool.false_eq_true, if_false]
      rw [(by decide : ("inclination" ++ " = " : String) = "inclination = ")]
    · have x5 : pyStartswith line "long_asc_node" = false := startsWith_excl hs (by decide) (by decide)
      have x6 : pyStartswith line "mean_anomaly" = false := startsWith_excl hs (by decide) (by decide)
      refine ⟨fmtFloat e.w, ?_⟩
      simp only [computeNewLine, hs, x5, x6, if_true, Bool.false_eq_true, if_false]
      rw [(by decide : ("arg_pe" ++ " = " : String) = "arg_pe = ")]
    · have x6 : pyStartswith line "mean_anomaly" = false := startsWith_excl hs (by decide) (by decide)
      refine ⟨fmtFloat e.om, ?_⟩
      simp only [computeNewLine, hs, x6, if_true, Bool.false_eq_true, if_false]
      rw [(by decide : ("long_asc_node" ++ " = " : String) = "long_asc_node = ")]
    · refine ⟨fmtFloat e.ma, ?_⟩
      simp only [computeNewLine, hs, if_true]
      rw [(by decide : ("mean_anomaly" ++ " = " : String) = "mean_anomaly = ")]
  · intro hs
    have x2 : pyStartswith line "periapsis" = false := startsWith_excl hs (by decide) (by decide)
    have x3 : pyStartswith line "inclination" = false := startsWith_excl hs (by decide) (by decide)
    have x4 : pyStartswith line "arg_pe" = false := startsWith_excl hs (by decide) (by decide)
    have x5 : pyStartswith line "long_asc_node" = false := startsWith_excl hs (by decide) (by decide)
    have x6 : pyStartswith line "mean_anomaly" = false := startsWith_excl hs (by decide) (by decide)
    simp only [computeNewLine, hs, x2, x3, x4, x5, x6, Bool.true_or,
      if_true, Bool.false_eq_true, if_false]

/-- C2 (witness): a concrete `eccentricity` line is rewritten with its own
key, and a concrete `apoapsis` line is rewritten with key `eccentricity`. -/
theorem c2_replacement_key_witness :
    pyStartswith "eccentricity = 0.3" "eccentricity" = true ∧
    (∃ v, computeNewLine ⟨2, 3, 4, 5, 6, 7⟩ "eccentricity = 0.3" =
      some ("eccentricity" ++ " = " ++ v)) ∧
    computeNewLine ⟨2, 3, 4, 5, 6, 7⟩ "apoapsis = 0.3" =
      some ("eccentricity = " ++ fmtFloat (2 : ℚ)) :=
  ⟨by decide,
   (c2_replacement_key ⟨2, 3, 4, 5, 6, 7⟩ "eccentricity = 0.3").1
     "eccentricity" (by decide) (by decide),
   (c2_replacement_key ⟨2, 3, 4, 5, 6, 7⟩ "apoapsis = 0.3").2 (by decide)⟩

/-- C5: on every `periapsis` field line the value written is the parsed
periapsis radius (km) multiplied by 1000 (metres); in particular a radius
of `1.0e8` km is written as the value `1.0e11`. -/
theorem c5_periapsis_meters (e : Elements) (line : String)
    (h : pyStartswith line "periapsis" = true) :
    computeNewLine e line = some ("periapsis = " ++ fmtFloat (e.qr * 1000)) ∧
    (e.qr = 10 ^ 8 →
      computeNewLine e line = some ("periapsis = " ++ fmtFloat ((10 : ℚ) ^ 11))) := by
  have x3 : pyStartswith line "inclination" = false := startsWith_excl h (by decide) (by decide)
  have x4 : pyStartswith line "arg_pe" = false := startsWith_excl h (by decide) (by decide)
  have x5 : pyStartswith line "long_asc_node" = false := startsWith_excl h (by decide) (by decide)
  have x6 : pyStartswith line "mean_anomaly" = false := startsWith_excl h (by decide) (by decide)
  have main : computeNewLine e line = some ("periapsis = " ++ fmtFloat (e.qr * 1000)) := by
    simp only [computeNewLine, h, x3, x4, x5, x6, if_true, Bool.false_eq_true, if_false]
  refine ⟨main, fun hq => ?_⟩
  rw [main, hq]
  norm_num

/-- C5 (witness): with periapsis radius `1.0e8` km, the written line is
`periapsis = 100000000000`. -/
theorem c5_periapsis_meters_witness :
    pyStartswith "periapsis = 7" "periapsis" = true ∧
    computeNewLine ⟨0, 10 ^ 8, 0, 0, 0, 0⟩ "periapsis = 7" =
      some ("periapsis = " ++ fmtFloat ((10 : ℚ) ^ 11)) ∧
    fmtFloat ((10 : ℚ) ^ 11) = "100000000000" :=
  ⟨by decide,
   (c5_periapsis_meters ⟨0, 10 ^ 8, 0, 0, 0, 0⟩ "periapsis = 7" (by decide)).2 rfl,
   by decide⟩

/-- Python indexing succeeds in range and returns the list element. -/
theorem getIdx_eq_getD (l : List ℚ) (i : Nat) (h : i < l.length) :
    getIdx l i = .ok (l.getD i 0) := by
  cases hq : l.get? i with
  | none =>
      rw [List.get?_eq_none] at hq
      omega
  | some a =>
      unfold getIdx
      rw [hq, List.getD_eq_getElem?_getD, ← List.get?_eq_getElem?, hq]
      rfl

/-- C3 (counterexample): the claim's extraction — text *strictly between*
the markers, first line dropped — disagrees with the code whenever the
text between the markers begins with a newline (the usual shape): on this
input the claim's reading keeps the timestamp `9.9` as token 0, while the
code (which strips first) drops it. -/
theorem c3_counterexample :
    parse_ephemeris "$$SOE\n9.9\n1 2 3 4 5 6 7 8\n$$EOE" =
      .ok (some ⟨1, 2, 3, 4, 5, 8⟩) ∧
    claimParse "$$SOE\n9.9\n1 2 3 4 5 6 7 8\n$$EOE" =
      some ⟨mkRat 99 10, 1, 2, 3, 4, 7⟩ ∧
    parse_ephemeris "$$SOE\n9.9\n1 2 3 4 5 6 7 8\n$$EOE" ≠
      .ok (claimParse "$$SOE\n9.9\n1 2 3 4 5 6 7 8\n$$EOE") := by
  refine ⟨by decide, by decide, by decide⟩

/-- C3 (amended): on a response with both markers and a well-formed record
(after *stripping* the text strictly between the markers: at least one
line, every token past the dropped first line numeric, at least 8 tokens),
`parse_ephemeris` returns the `Elements` value taking eccentricity from
token 0, periapsis radius (km) from token 1, inclination from token 2,
longitude of ascending node from token 3, argument of periapsis from token
4 and mean anomaly from token 7; tokens 5 and 6 are never used. -/
theorem c3_parse_positions (t : String) (si ei : Nat) (qs : List ℚ)
    (h1 : pyFind t ELEMENTS_START_TEXT = some si)
    (h2 : pyFind t ELEMENTS_END_TEXT = some ei)
    (h3 : 1 ≤ (pySplitlines (pyStrip
      (pySlice t (si + ELEMENTS_START_TEXT.length) ei))).length)
    (h4 : floatList (specTokens t si ei) = .ok qs)
    (h5 : 8 ≤ qs.length) :
    parse_ephemeris t = .ok (some ⟨qs.getD 0 0, qs.getD 1 0, qs.getD 2 0,
      qs.getD 3 0, qs.getD 4 0, qs.getD 7 0⟩) := by
  unfold specTokens at h4
  unfold parse_ephemeris
  rw [h1, h2]
  dsimp only
  rw [if_neg (by omega), h4]
  dsimp only
  rw [getIdx_eq_getD qs 0 (by omega), getIdx_eq_getD qs 1 (by omega),
    getIdx_eq_getD qs 2 (by omega), getIdx_eq_getD qs 3 (by omega),
    getIdx_eq_getD qs 4 (by omega), getIdx_eq_getD qs 7 (by omega)]

/-- C3 (witness): a concrete well-formed marker-delimited record is parsed
into the documented positions. -/
theorem c3_parse_positions_witness :
    pyFind "$$SOE\nT\n1 2 3 4 5 6 7 8\n$$EOE" ELEMENTS_START_TEXT = some 0 ∧
    pyFind "$$SOE\nT\n1 2 3 4 5 6 7 8\n$$EOE" ELEMENTS_END_TEXT = some 24 ∧
    floatList (specTokens "$$SOE\nT\n1 2 3 4 5 6 7 8\n$$EOE" 0 24) =
      .ok [1, 2, 3, 4, 5, 6, 7, 8] ∧
    parse_ephemeris "$$SOE\nT\n1 2 3 4 5 6 7 8\n$$EOE" =
      .ok (some ⟨1, 2, 3, 4, 5, 8⟩) := by
  refine ⟨by decide, by decide, by decide, ?_⟩
  have h := c3_parse_positions "$$SOE\nT\n1 2 3 4 5 6 7 8\n$$EOE" 0 24
    [1, 2, 3, 4, 5, 6, 7, 8] (by decide) (by decide) (by decide) (by decide)
    (by decide)
  exact h.trans (by decide)

/-- C6: when either marker is absent from the response text,
`parse_ephemeris` returns the empty result (no exception); and whenever
the HTTP call succeeds with text on which the parser returns the empty
result, `get_elements` raises an exception whose message is the fixed
prefix followed by the full raw response text. -/
theorem c6_empty_parse_loud_client :
    (∀ t : String,
      (pyFind t ELEMENTS_START_TEXT = none ∨ pyFind t ELEMENTS_END_TEXT = none) →
      parse_ephemeris t = .ok none) ∧
    (∀ (http : String → Except PyErr String) (name : String)
        (params : List (String × String)) (t : String),
      get_api_params name = .ok (some params) →
      http (get_api_url params) = .ok t →
      parse_ephemeris t = .ok none →
      get_elements http name = .error (.exception (PARSE_ERR_PREFIX ++ t))) := by
  constructor
  · intro t h
    unfold parse_ephemeris
    rcases h with h | h
    · rw [h]
    · rw [h]
      cases pyFind t ELEMENTS_START_TEXT <;> rfl
  · intro http name params t h1 h2 h3
    unfold get_elements
    rw [h1]
    dsimp only
    rw [h2]
    dsimp only
    rw [h3]

/-- C6 (witness): a concrete marker-free response parses to the empty
result, and a concrete client run on it fails with the raw text in the
exception message. -/
theorem c6_empty_parse_loud_client_witness :
    parse_ephemeris "API usage limit exceeded" = .ok none ∧
    get_elements (fun _ => .ok "API usage limit exceeded") "mercury" =
      .error (.exception (PARSE_ERR_PREFIX ++ "API usage limit exceeded")) :=
  ⟨c6_empty_parse_loud_client.1 "API usage limit exceeded" (Or.inl (by decide)),
   c6_empty_parse_loud_client.2 (fun _ => .ok "API usage limit exceeded") "mercury"
     (dictSet (dictSet API_BASE_PARAMS "COMMAND" "'199'") "CENTER" "@10")
     "API usage limit exceeded" (by decide) rfl
     (c6_empty_parse_loud_client.1 "API usage limit exceeded" (Or.inl (by decide)))⟩

/-- C7: a registry key mapped to the "no lookup" variant makes
`get_elements` return the empty result for *every* HTTP oracle (so no URL
is built and no request issued); a key mapped to a pair always yields the
same parameter set, with `COMMAND` and `CENTER` derived from the pair; a
name absent from the registry raises the unrecognized-body exception. -/
theorem c7_registry_contract :
    (∀ (http : String → Except PyErr String) (name : String),
      List.lookup name BODY_MAP = some none →
      get_elements http name = .ok none) ∧
    (∀ (name target center : String),
      List.lookup name BODY_MAP = some (some (target, center)) →
      get_api_params name = .ok (some (dictSet (dictSet API_BASE_PARAMS
        "COMMAND" ("'" ++ target ++ "'")) "CENTER" ("@" ++ center)))) ∧
    (∀ name : String,
      List.lookup name BODY_MAP = none →
      get_api_params name = .error (.exception
        ("Body '" ++ name ++ "' is not in BODY_MAP (unrecognized body)"))) := by
  refine ⟨fun http name h => ?_, fun name target center h => ?_, fun name h => ?_⟩
  · unfold get_elements get_api_params
    rw [h]
  · unfold get_api_params
    rw [h]
  · unfold get_api_params
    rw [h]

/-- C7 (witness): `the_sun` has no lookup and fetch returns the empty
result against an oracle that always errors; `mercury` yields its fixed
(target, center) parameters; `vulcan` is unknown and raises. -/
theorem c7_registry_contract_witness :
    get_elements (fun _ => .error .httpError) "the_sun" = .ok none ∧
    get_api_params "mercury" = .ok (some (dictSet (dictSet API_BASE_PARAMS
      "COMMAND" ("'" ++ "199" ++ "'")) "CENTER" ("@" ++ "10"))) ∧
    get_api_params "vulcan" = .error (.exception
      ("Body '" ++ "vulcan" ++ "' is not in BODY_MAP (unrecognized body)")) :=
  ⟨c7_registry_contract.1 (fun _ => .error .httpError) "the_sun" (by decide),
   c7_registry_contract.2.1 "mercury" "199" "10" (by decide),
   c7_registry_contract.2.2 "vulcan" (by decide)⟩

/-- The second pass leaves every list unchanged when no line was recorded
in `modified_lines`. -/
theorem applyMods_nil : ∀ (n : Nat) (ls : List String), applyMods [] n ls = ls
  | _, [] => rfl
  | n, raw :: rest => by
      unfold applyMods
      rw [applyMods_nil (n + 1) rest]
      rfl

/-- A scan over lines none of which is a section header, starting with no
current elements, changes nothing. -/
theorem scan_no_header (fetch : String → Except PyErr (Option Elements))
    (ls : List String) : ∀ (n : Nat) (st : ScanState),
    st.curElems = none → (∀ raw ∈ ls, isHdrLine (pyStrip raw) = false) →
    scanLines fetch n ls st = .ok st := by
  induction ls with
  | nil => intro n st _ _; rfl
  | cons raw rest ih =>
      intro n st hc h
      have hr : isHdrLine (pyStrip raw) = false := h raw (List.mem_cons_self _ _)
      have hstep : scanStep fetch n raw st = .ok st := by
        unfold scanStep headerPhase fieldPhase
        simp only [hr, hc, Bool.false_eq_true, if_false]
      unfold scanLines
      rw [hstep]
      exact ih (n + 1) st hc (fun r hrr => h r (List.mem_cons_of_mem _ hrr))

/-- C4 (counterexample): a config file whose only line is the header
`[nonbody]` has no section header naming a registry key, yet the run does
not reproduce the file — it aborts with a `KeyError` before writing. -/
theorem c4_counterexample :
    runMain (fun _ => .ok "") ["[nonbody]\n"] = .error (.keyError "nonbody") ∧
    runMain (fun _ => .ok "") ["[nonbody]\n"] ≠ .ok ["[nonbody]\n"] :=
  ⟨by decide, by decide⟩

/-- C4 (amended): on a config file containing no section-header line at
all, the run succeeds and the output is byte-identical to the input (the
desynchronisation report, which covers every registry key here, only
prints). -/
theorem c4_no_header_roundtrip (http : String → Except PyErr String)
    (rawLines : List String)
    (h : ∀ raw ∈ rawLines, isHdrLine (pyStrip raw) = false) :
    runMain http rawLines = .ok rawLines := by
  unfold runMain
  rw [scan_no_header (get_elements http) rawLines 0 mainInit rfl h]
  exact congrArg Except.ok (applyMods_nil 0 rawLines)

/-- C4 (witness): a concrete header-free file is reproduced verbatim. -/
theorem c4_no_header_roundtrip_witness :
    runMain (fun _ => .ok "") ["# presets\n", "x = 1\n", "\n"] =
      .ok ["# presets\n", "x = 1\n", "\n"] :=
  c4_no_header_roundtrip (fun _ => .ok "") ["# presets\n", "x = 1\n", "\n"]
    (by decide)

/-- A successful dict lookup witnesses membership. -/
theorem mem_of_lookup_eq_some :
    ∀ (mods : List (Nat × String)) (i : Nat) (m : String),
    List.lookup i mods = some m → (i, m) ∈ mods := by
  intro mods
  induction mods with
  | nil => intro i m h; simp [List.lookup] at h
  | cons p rest ih =>
      obtain ⟨k, v⟩ := p
      intro i m h
      by_cases hik : i = k
      · subst hik
        have hbeq : (i == i) = true := beq_self_eq_true i
        simp only [List.lookup, hbeq] at h
        rw [← Option.some.inj h]
        exact List.mem_cons_self _ _
      · have hne : (i == k) = false := beq_eq_false_iff_ne.mpr hik
        simp only [List.lookup, hne] at h
        exact List.mem_cons_of_mem _ (ih i m h)

/-- The second pass reproduces verbatim every line whose (shifted) index
has no entry in `modified_lines`. -/
theorem applyMods_get?_of_lookup_none :
    ∀ (ls : List String) (mods : List (Nat × String)) (n i : Nat) (raw : String),
    ls.get? i = some raw → List.lookup (n + i) mods = none →
    (applyMods mods n ls).get? i = some raw := by
  intro ls
  induction ls with
  | nil => intro mods n i raw h _; simp at h
  | cons head rest ih =>
      intro mods n i raw h hl
      cases i with
      | zero =>
          rw [Nat.add_zero] at hl
          unfold applyMods
          rw [List.get?_cons_zero, hl]
          rw [List.get?_cons_zero] at h
          exact h
      | succ j =>
          unfold applyMods
          rw [List.get?_cons_succ]
          rw [List.get?_cons_succ] at h
          refine ih mods (n + 1) j raw h ?_
          rw [show n + 1 + j = n + (j + 1) from by omega]
          exact hl

/-- A line actually replaced bears one of the recognised field prefixes. -/
theorem recognizedField_of_computeNewLine {e : Elements} {line m : String}
    (h : computeNewLine e line = some m) : recognizedField line = true := by
  by_cases hr : recognizedField line = true
  · exact hr
  · exfalso
    have hf : recognizedField line = false := by
      revert hr; cases recognizedField line <;> simp
    unfold recognizedField at hf
    simp only [Bool.or_eq_false_iff] at hf
    obtain ⟨⟨⟨⟨⟨⟨h1, h2⟩, h3⟩, h4⟩, h5⟩, h6⟩, h7⟩ := hf
    simp [computeNewLine, h1, h2, h3, h4, h5, h6, h7] at h

/-- The `try`/`except` result determines the fetch outcome when elements
were obtained. -/
theorem fetchToElems_some {r : Except PyErr (Option Elements)} {el : Elements}
    (h : fetchToElems r = some el) : r = .ok (some el) := by
  cases r with
  | ok v => rw [show v = some el from h]
  | error e => simp [fetchToElems] at h

/-- Characterisation of a successful header phase. -/
theorem headerPhase_ok_spec {fetch : String → Except PyErr (Option Elements)}
    {line : String} {st0 stH : ScanState}
    (h : headerPhase fetch line st0 = .ok stH) :
    (isHdrLine line = false ∧ stH = st0) ∨
    (isHdrLine line = true ∧
      stH.remaining = st0.remaining.erase (hdrBody line) ∧
      stH.curElems = fetchToElems (fetch (hdrBody line)) ∧
      stH.modified = st0.modified) := by
  unfold headerPhase at h
  by_cases hdr : isHdrLine line = true
  · rw [if_pos hdr] at h
    by_cases bm : hdrBody line ∈ st0.remaining
    · rw [if_pos bm] at h
      injection h with h'
      exact Or.inr ⟨hdr, by rw [← h'], by rw [← h'], by rw [← h']⟩
    · rw [if_neg bm] at h
      exact absurd h (by simp)
  · rw [if_neg hdr] at h
    injection h with h'
    have hdr' : isHdrLine line = false := by
      revert hdr; cases isHdrLine line <;> simp
    exact Or.inl ⟨hdr', h'.symm⟩

/-- Characterisation of the field phase: current elements and remaining
set are untouched, and at most the one current line is recorded. -/
theorem fieldPhase_spec (i : Nat) (line : String) (st : ScanState) :
    (fieldPhase i line st).curElems = st.curElems ∧
    ((fieldPhase i line st).modified = st.modified ∨
      ∃ el nl, st.curElems = some el ∧ computeNewLine el line = some nl ∧
        (fieldPhase i line st).modified = st.modified ++ [(i, nl)]) := by
  unfold fieldPhase
  split
  · exact ⟨rfl, Or.inl rfl⟩
  · next e heq =>
      split
      · next nl hm => exact ⟨rfl, Or.inr ⟨e, nl, heq, hm, rfl⟩⟩
      · exact ⟨rfl, Or.inl rfl⟩

/-- Characterisation of a successful scan step. -/
theorem scanStep_ok_spec {fetch : String → Except PyErr (Option Elements)}
    {n : Nat} {raw : String} {st0 st1 : ScanState}
    (h : scanStep fetch n raw st0 = .ok st1) :
    ((isHdrLine (pyStrip raw) = false ∧ st1.curElems = st0.curElems) ∨
      (isHdrLine (pyStrip raw) = true ∧
        st1.curElems = fetchToElems (fetch (hdrBody (pyStrip raw))))) ∧
    (st1.modified = st0.modified ∨
      ∃ el nl, st1.curElems = some el ∧
        computeNewLine el (pyStrip raw) = some nl ∧
        st1.modified = st0.modified ++ [(n, nl)]) := by
  unfold scanStep at h
  cases hh : headerPhase fetch (pyStrip raw) st0 with
  | error e => rw [hh] at h; exact absurd h (by simp)
  | ok stH =>
      rw [hh] at h
      injection h with h'
      obtain ⟨hce, hmod⟩ := fieldPhase_spec n (pyStrip raw) stH
      rw [h'] at hce hmod
      rcases headerPhase_ok_spec hh with ⟨hdr, rfl⟩ | ⟨hdr, _, hcur, hmods⟩
      · refine ⟨Or.inl ⟨hdr, hce⟩, ?_⟩
        rcases hmod with hmod | ⟨el, nl, hel, hcm, hmod⟩
        · exact Or.inl hmod
        · exact Or.inr ⟨el, nl, by rw [hce, hel], hcm, hmod⟩
      · refine ⟨Or.inr ⟨hdr, by rw [hce, hcur]⟩, ?_⟩
        rcases hmod with hmod | ⟨el, nl, hel, hcm, hmod⟩
        · exact Or.inl (by rw [hmod, hmods])
        · exact Or.inr ⟨el, nl, by rw [hce, hel], hcm, by rw [hmod, hmods]⟩

/-- Folding the last-header step from any accumulator: a header inside the
list wins, otherwise the accumulator survives. -/
theorem foldl_lastHeaderStep (xs : List String) : ∀ acc : Option String,
    xs.foldl lastHeaderStep acc =
      match xs.foldl lastHeaderStep none with
      | some b => some b
      | none => acc := by
  induction xs with
  | nil => intro acc; rfl
  | cons x xs ih =>
      intro acc
      rw [List.foldl_cons, List.foldl_cons, ih (lastHeaderStep acc x),
        ih (lastHeaderStep none x)]
      cases hx : xs.foldl lastHeaderStep none with
      | some b => rfl
      | none =>
          unfold lastHeaderStep
          by_cases hh : isHdrLine (pyStrip x) = true
          · simp only [hh, if_true]
          · have hh' : isHdrLine (pyStrip x) = false := by
              revert hh; cases isHdrLine (pyStrip x) <;> simp
            simp only [hh', Bool.false_eq_true, if_false]

/-- Peeling one raw line off a last-header scan. -/
theorem lastHeader_cons (x : String) (xs : List String) :
    lastHeader (x :: xs) =
      match lastHeader xs with
      | some b => some b
      | none => lastHeaderStep none x := by
  unfold lastHeader
  rw [List.foldl_cons]
  exact foldl_lastHeaderStep xs (lastHeaderStep none x)

/-- The elements governing position `j` of the suffix `ls` of the file,
for a scan started in state `st0`: the fetched elements of the last header
at or before `j` within `ls`, or the inherited `st0.curElems` when `ls`
has no header up to `j`. -/
def governedElems (fetch : String → Except PyErr (Option Elements))
    (st0 : ScanState) (ls : List String) (j : Nat) (el : Elements) : Prop :=
  match lastHeader (ls.take (j + 1)) with
  | some b => fetch b = .ok (some el)
  | none => st0.curElems = some el

/-- Every entry of `modified_lines` after a successful scan either was
present before the scan or records a recognised field line of the suffix,
replaced under the elements fetched for its governing section header. -/
theorem scan_modified_spec (fetch : String → Except PyErr (Option Elements)) :
    ∀ (ls : List String) (n : Nat) (st0 st : ScanState),
    scanLines fetch n ls st0 = .ok st →
    ∀ i m, (i, m) ∈ st.modified →
      (i, m) ∈ st0.modified ∨
      ∃ j raw el, i = n + j ∧ ls.get? j = some raw ∧
        computeNewLine el (pyStrip raw) = some m ∧
        governedElems fetch st0 ls j el := by
  intro ls
  induction ls with
  | nil =>
      intro n st0 st hs i m hm
      simp only [scanLines] at hs
      cases hs
      exact Or.inl hm
  | cons raw rest ih =>
      intro n st0 st hs i m hm
      simp only [scanLines] at hs
      cases hstep : scanStep fetch n raw st0 with
      | error e => rw [hstep] at hs; exact absurd hs (by simp)
      | ok st1 =>
          rw [hstep] at hs
          obtain ⟨hcur, hmod⟩ := scanStep_ok_spec hstep
          rcases ih (n + 1) st1 st hs i m hm with hin1 | ⟨j, raw', el, hij, hget, hcm, hgov⟩
          · -- the entry was already in st1.modified
            rcases hmod with hmod | ⟨el, nl, hel, hcm, hmod⟩
            · exact Or.inl (hmod ▸ hin1)
            · rw [hmod, List.mem_append] at hin1
              rcases hin1 with hin0 | hnew
              · exact Or.inl hin0
              · rw [List.mem_singleton] at hnew
                injection hnew with hi hm2
                subst hi
                subst hm2
                refine Or.inr ⟨0, raw, el, by omega, rfl, hcm, ?_⟩
                unfold governedElems
                rcases hcur with ⟨hdr, hsame⟩ | ⟨hdr, hfetch⟩
                · have hlh : lastHeader ((raw :: rest).take 1) = none := by
                    unfold lastHeader lastHeaderStep
                    simp [hdr]
                  rw [hlh]
                  rw [← hsame, hel]
                · have hlh : lastHeader ((raw :: rest).take 1) =
                      some (hdrBody (pyStrip raw)) := by
                    unfold lastHeader lastHeaderStep
                    simp [hdr]
                  rw [hlh]
                  exact fetchToElems_some (by rw [← hfetch, hel])
          · -- the entry comes from the recursive scan of `rest`
            refine Or.inr ⟨j + 1, raw', el, by omega, by rw [List.get?_cons_succ]; exact hget,
              hcm, ?_⟩
            unfold governedElems at hgov ⊢
            rw [List.take_succ_cons, lastHeader_cons]
            cases hlh : lastHeader (rest.take (j + 1)) with
            | some b =>
                rw [hlh] at hgov
                exact hgov
            | none =>
                rw [hlh] at hgov
                dsimp only
                rcases hcur with ⟨hdr, hsame⟩ | ⟨hdr, hfetch⟩
                · have : lastHeaderStep none raw = none := by
                    unfold lastHeaderStep; simp [hdr]
                  rw [this, ← hsame]
                  exact hgov
                · have : lastHeaderStep none raw = some (hdrBody (pyStrip raw)) := by
                    unfold lastHeaderStep; simp [hdr]
                  rw [this]
                  exact fetchToElems_some (by rw [← hfetch]; exact hgov)

/-- C8 (frame/effect): after a successful run, a line that is not a
recognised field line — or whose governing section's fetch did not succeed
with elements — appears in the output byte-for-byte at its own position. -/
theorem c8_frame (fetch : String → Except PyErr (Option Elements))
    (rawLines : List String) (st : ScanState) (i : Nat) (raw : String)
    (hs : scanLines fetch 0 rawLines mainInit = .ok st)
    (hg : rawLines.get? i = some raw)
    (hcond : recognizedField (pyStrip raw) = false ∨
      (∀ b, lastHeader (rawLines.take (i + 1)) = some b →
        ∀ el, fetch b ≠ .ok (some el))) :
    (applyMods st.modified 0 rawLines).get? i = some raw := by
  cases hl : List.lookup i st.modified with
  | none =>
      exact applyMods_get?_of_lookup_none rawLines st.modified 0 i raw hg
        (by rwa [Nat.zero_add])
  | some m =>
      exfalso
      have hmem := mem_of_lookup_eq_some st.modified i m hl
      rcases scan_modified_spec fetch rawLines 0 mainInit st hs i m hmem with
        hin | ⟨j, raw', el, hij, hget, hcm, hgov⟩
      · simp [mainInit] at hin
      · have hj : j = i := by omega
        subst hj
        rw [hg] at hget
        have hrr : raw' = raw := (Option.some.inj hget).symm
        subst hrr
        rcases hcond with hrec | hnof
        · rw [recognizedField_of_computeNewLine hcm] at hrec
          exact absurd hrec (by simp)
        · unfold governedElems at hgov
          cases hlh : lastHeader (rawLines.take (j + 1)) with
          | some b =>
              rw [hlh] at hgov
              exact hnof b hlh el hgov
          | none =>
              rw [hlh] at hgov
              simp [mainInit] at hgov

/-- C8 (witness): a comment-only file passes through verbatim. -/
theorem c8_frame_witness :
    scanLines (fun _ => Except.ok none) 0 ["# comment\n"] mainInit = .ok mainInit ∧
    (applyMods mainInit.modified 0 ["# comment\n"]).get? 0 = some "# comment\n" :=
  ⟨by decide,
   c8_frame (fun _ => Except.ok none) ["# comment\n"] mainInit 0 "# comment\n"
     (by decide) (by decide) (Or.inl (by decide))⟩

/-- C10: `parse_ephemeris` is not total on marker-delimited inputs: on a
block holding only the timestamp line (fewer than 8 tokens after the
dropped first line — here zero), it raises `IndexError` rather than
returning `None` or an `Elements` value. -/
theorem c10_parse_not_total :
    parse_ephemeris "$$SOE\n2460946.5 = A.D. 2025-Sep-27\n$$EOE" =
      .error .indexError := by
  decide

end UpdatePresets
